import Mathlib

/-!
Shallow embedding of the node-mongo convenience layer:
`Collection` (src/unnamed/part_000, a file exporting the `Collection`
class) and `Database` (src/database.js).

JavaScript values that can appear in a filter, a document or an update
payload are modelled by `JsValue`; objects are ordered association
lists (the order of `for ... in` enumeration), arrays are lists.
The MongoDB driver (an external collaborator, not part of this
repository) is modelled by explicit function parameters returning
`Except StoreError _`: a rejected promise is an `Except.error`
carrying the rejection value, a resolved one is `Except.ok`.
-/

/-- A JavaScript value as it can occur in filters/documents of this
library: strings, numbers (modelled as integers), booleans, `null`,
`undefined`, a native `Mongo.ObjectID` (identified by its 24-hex-digit
lowercase encoding), arrays, and plain objects as ordered key/value
lists. -/
inductive JsValue where
  | str : String → JsValue
  | num : Int → JsValue
  | bool : Bool → JsValue
  | null : JsValue
  | undefined : JsValue
  | objectId : String → JsValue
  | arr : List JsValue → JsValue
  | obj : List (String × JsValue) → JsValue

/-- The JavaScript `typeof` operator on a `JsValue`.  Note that
`typeof null`, `typeof` an array and `typeof` an `ObjectID` instance
are all the string "object". -/
def jsTypeof : JsValue → String
  | .str _ => "string"
  | .num _ => "number"
  | .bool _ => "boolean"
  | .null => "object"
  | .undefined => "undefined"
  | .objectId _ => "object"
  | .arr _ => "object"
  | .obj _ => "object"

/-- Error raised by the bson `ObjectID` constructor on an argument that
is neither a 12-character string, a 24-hex-character string, a number,
`null` nor an existing `ObjectID`. -/
inductive IdError where
  | invalidIdentifierFormat : IdError
deriving DecidableEq, Repr

/-- Hex digit test, the character class of bson's
`checkForHexRegExp = /^[0-9a-fA-F]{24}$/`. -/
def isHexDigitChar (c : Char) : Bool :=
  (('0' ≤ c) && (c ≤ '9')) || (('a' ≤ c) && (c ≤ 'f')) || (('A' ≤ c) && (c ≤ 'F'))

/-- A 24-character hex string (the hex encoding of a 12-byte id). -/
def isHex24 (s : String) : Bool :=
  s.data.length == 24 && s.data.all isHexDigitChar

/-- The strings accepted by the `ObjectID` constructor: a 24-hex-digit
string, or any 12-character string taken as 12 raw bytes. -/
def isValidIdString (s : String) : Bool :=
  isHex24 s || s.data.length == 12

/-- Lower-case a string character by character (hex normalization
performed by the bson library when parsing a 24-hex-digit string). -/
def lowerString (s : String) : String :=
  ⟨s.data.map Char.toLower⟩

/-- The hex digit for a value below 16, lowercase. -/
def hexDigit (n : Nat) : Char :=
  if n < 10 then Char.ofNat (48 + n) else Char.ofNat (87 + n)

/-- Hex-encode a 12-character string taken as raw bytes (the bson
behaviour for a valid 12-character id string): each character code,
reduced mod 256, becomes two hex digits. -/
def rawToHex (s : String) : String :=
  ⟨s.data.foldr (fun c acc => hexDigit (c.toNat % 256 / 16) :: hexDigit (c.toNat % 16) :: acc) []⟩

/-- The native-identifier form of a valid id string: a 24-hex string
is parsed (and case-normalized), a 12-character string is kept as its
raw bytes, hex encoded. -/
def nativeIdOfString (s : String) : JsValue :=
  if isHex24 s then .objectId (lowerString s) else .objectId (rawToHex s)

/-- `new Mongo.ObjectID(v)`, the bson 1.x constructor:
an existing `ObjectID` is returned as is; `null` and numbers generate a
fresh time-based id (modelled abstractly by a fixed marker, since clock
and randomness are outside a pure embedding — no theorem below depends
on the generated value); a valid id string is converted; every other
argument throws the "must be a single String of 12 bytes or a string of
24 hex characters" `TypeError` (`invalidIdentifierFormat`). -/
def mkObjectID : JsValue → Except IdError JsValue
  | .objectId h => .ok (.objectId h)
  | .null => .ok (.objectId "generated")
  | .num _ => .ok (.objectId "generated")
  | .str s =>
      if isValidIdString s then .ok (nativeIdOfString s)
      else .error .invalidIdentifierFormat
  | _ => .error .invalidIdentifierFormat

/-!
`Collection.processFilter` mutates the filter object in place and can
throw mid-loop, so every step is modelled in state-passing style: each
function returns the outcome (`Except IdError Unit`) together with the
final state of the data it was mutating.  On a throw, elements already
visited keep their new values and the rest keep their old ones, exactly
as in-place JavaScript mutation behaves.
-/

/-- The inner element loop
`for(i...) filter[k1][k2][i] = new Mongo.ObjectID(filter[k1][k2][i])`:
coerce each array element in order, stopping at the first constructor
throw. -/
def coerceElems : List JsValue → Except IdError Unit × List JsValue
  | [] => (.ok (), [])
  | v :: rest =>
    match mkObjectID v with
    | .error e => (.error e, v :: rest)
    | .ok v' =>
      match coerceElems rest with
      | (r, rest') => (r, v' :: rest')

/-- The operator loop `for(k2 in filter[k1])` when `filter._id` is a
plain object: each array-valued entry has its elements coerced; other
entries are untouched. -/
def coerceOperatorEntries : List (String × JsValue) → Except IdError Unit × List (String × JsValue)
  | [] => (.ok (), [])
  | (k, .arr elems) :: rest =>
    (match coerceElems elems with
     | (.error e, elems') => (.error e, (k, .arr elems') :: rest)
     | (.ok _, elems') =>
       match coerceOperatorEntries rest with
       | (r, rest') => (r, (k, .arr elems') :: rest'))
  | (k, v) :: rest =>
    match coerceOperatorEntries rest with
    | (r, rest') => (r, (k, v) :: rest')

/-- The operator loop when `filter._id` is itself an array: `for ... in`
enumerates the indices, so the array-valued elements have their own
elements coerced and all other elements are untouched. -/
def coerceIdArrayElems : List JsValue → Except IdError Unit × List JsValue
  | [] => (.ok (), [])
  | .arr inner :: rest =>
    (match coerceElems inner with
     | (.error e, inner') => (.error e, .arr inner' :: rest)
     | (.ok _, inner') =>
       match coerceIdArrayElems rest with
       | (r, rest') => (r, .arr inner' :: rest'))
  | v :: rest =>
    match coerceIdArrayElems rest with
    | (r, rest') => (r, v :: rest')

/-- The `switch (typeof filter[k1])` body applied to the value of an
`_id` key: a string is replaced by `new Mongo.ObjectID(string)` (the
throw leaves the old value in place, since the constructor throws before
the assignment); an object has its array-valued entries coerced
elementwise; `null` and `ObjectID` values enumerate no array-valued
properties and are unchanged; any other `typeof` has no `case` and is
unchanged. -/
def coerceIdValue : JsValue → Except IdError Unit × JsValue
  | .str s =>
    (match mkObjectID (.str s) with
     | .ok v' => (.ok (), v')
     | .error e => (.error e, .str s))
  | .obj kvs =>
    (match coerceOperatorEntries kvs with
     | (r, kvs') => (r, .obj kvs'))
  | .arr elems =>
    (match coerceIdArrayElems elems with
     | (r, elems') => (r, .arr elems'))
  | v => (.ok (), v)

/-- The outer loop `for (let k1 in filter)`: only keys equal to `"_id"`
are processed, all other entries pass through untouched. -/
def processFilterEntries : List (String × JsValue) → Except IdError Unit × List (String × JsValue)
  | [] => (.ok (), [])
  | (k, v) :: rest =>
    if k = "_id" then
      match coerceIdValue v with
      | (.error e, v') => (.error e, (k, v') :: rest)
      | (.ok _, v') =>
        match processFilterEntries rest with
        | (r, rest') => (r, (k, v') :: rest')
    else
      match processFilterEntries rest with
      | (r, rest') => (r, (k, v) :: rest')

/-- `Collection.processFilter` in state-passing form: the outcome
together with the final state of the (in-place mutated) filter.  A
non-object filter has no enumerable key equal to `"_id"` and is
returned unchanged. -/
def processFilterState : JsValue → Except IdError Unit × JsValue
  | .obj kvs =>
    (match processFilterEntries kvs with
     | (r, kvs') => (r, .obj kvs'))
  | v => (.ok (), v)

/-- `Collection.processFilter` as its callers see it: the processed
filter on success, the thrown `TypeError` otherwise. -/
def processFilter (filter : JsValue) : Except IdError JsValue :=
  match processFilterState filter with
  | (.ok _, f') => .ok f'
  | (.error e, _) => .error e

/-!
`Collection.sanitizeFilter` and the `mongo-sanitize` dependency.
-/

/-- The test performed by mongo-sanitize's regular expression on each
enumerated key: does the key begin with the reserved operator prefix
character? -/
def startsWithDollar (s : String) : Bool :=
  match s.data with
  | [] => false
  | c :: _ => c = '$'

/-- The `mongo-sanitize` package: on any object, delete every own
enumerable key beginning with the reserved prefix; it does not recurse.
Array indices and non-objects are unaffected. -/
def mongoSanitize : JsValue → JsValue
  | .obj kvs => .obj (kvs.filter (fun kv => !startsWithDollar kv.1))
  | v => v

mutual
/-- `Collection.sanitizeFilter`: recursively sanitize every array
element and every object value in place, then strip the reserved-prefix
keys of the top level with `mongo-sanitize`.  (For an array, the source
actually recurses into the elements twice — once under the
`Array.isArray` branch and once under the `typeof === "object"` branch,
whose `Object.values` are the elements again; the second pass re-visits
already-sanitized values, a no-op by the idempotence proved below, so a
single recursion has the same final state.) -/
def sanitizeFilter : JsValue → JsValue
  | .arr elems => mongoSanitize (.arr (sanitizeList elems))
  | .obj kvs => mongoSanitize (.obj (sanitizeEntries kvs))
  | v => mongoSanitize v

/-- Elementwise recursion of `sanitizeFilter` over an array. -/
def sanitizeList : List JsValue → List JsValue
  | [] => []
  | v :: rest => sanitizeFilter v :: sanitizeList rest

/-- Valuewise recursion of `sanitizeFilter` over an object's entries. -/
def sanitizeEntries : List (String × JsValue) → List (String × JsValue)
  | [] => []
  | (k, v) :: rest => (k, sanitizeFilter v) :: sanitizeEntries rest
end

mutual
/-- No key at any nesting depth begins with the reserved operator
prefix. -/
def noDollarKeys : JsValue → Bool
  | .arr elems => noDollarList elems
  | .obj kvs => noDollarEntries kvs
  | _ => true

/-- `noDollarKeys` over every element of an array. -/
def noDollarList : List JsValue → Bool
  | [] => true
  | v :: rest => noDollarKeys v && noDollarList rest

/-- `noDollarKeys` over every entry of an object: the key itself must
not begin with the prefix, nor any key inside the value. -/
def noDollarEntries : List (String × JsValue) → Bool
  | [] => true
  | (k, v) :: rest => !startsWithDollar k && noDollarKeys v && noDollarEntries rest
end

/-!
The `Collection` CRUD operations.  Each is parameterized by the
underlying native driver call it wraps (an external collaborator),
modelled as a function returning `Except StoreError _`: `Except.error`
is a rejected promise (which the `await` re-throws), `Except.ok` a
resolved one.
-/

/-- A rejected driver promise; the rejection value can be an arbitrary
JavaScript value. -/
inductive StoreError where
  | failure : JsValue → StoreError

/-- What a `Collection` operation can throw to its caller: the
`TypeError` of the `ObjectID` constructor raised inside
`processFilter`, or a driver rejection that the operation does not
catch. -/
inductive OpError where
  | invalidId : IdError → OpError
  | store : StoreError → OpError

/-- The result object of the driver's `deleteOne`. -/
structure DeleteResult where
  deletedCount : Nat

/-- The result object of the driver's `replaceOne`/`updateOne`; the
source only reads `modifiedCount`. -/
structure ModifyResult where
  modifiedCount : Nat

/-- The result object of the driver's `insertOne`; the source reads
`insertedCount` (for logging) and returns the whole object. -/
structure InsertResult where
  insertedCount : Nat
  insertedId : JsValue

/-- `Collection.deleteDocument`: process the filter (a throw
propagates), call `deleteOne` (no catch, a rejection propagates), and
report `deletedCount` truthiness as a boolean. -/
def deleteDocument (deleteOne : JsValue → Except StoreError DeleteResult)
    (filter : JsValue) : Except OpError Bool :=
  match processFilter filter with
  | .error e => .error (.invalidId e)
  | .ok f =>
    match deleteOne f with
    | .error e => .error (.store e)
    | .ok result => if result.deletedCount ≠ 0 then .ok true else .ok false

/-- `Collection.getDocument`: process the filter, call `findOne` with
the processed filter and the options, return the found item (possibly
`null`); rejections propagate. -/
def getDocument (findOne : JsValue → JsValue → Except StoreError JsValue)
    (filter options : JsValue) : Except OpError JsValue :=
  match processFilter filter with
  | .error e => .error (.invalidId e)
  | .ok f =>
    match findOne f options with
    | .error e => .error (.store e)
    | .ok item => .ok item

/-- `Collection.getDocuments`: process the filter, call `find` and
materialize the cursor with `toArray`; a cursor error rejects, both
stages are modelled as one fallible call. -/
def getDocuments (find : JsValue → JsValue → Except StoreError (List JsValue))
    (filter options : JsValue) : Except OpError (List JsValue) :=
  match processFilter filter with
  | .error e => .error (.invalidId e)
  | .ok f =>
    match find f options with
    | .error e => .error (.store e)
    | .ok docs => .ok docs

/-- `Collection.getCount`: calls `countDocuments(filter, options)`
directly — the source does not pass the filter through
`processFilter`. -/
def getCount (countDocuments : JsValue → JsValue → Except StoreError Int)
    (filter options : JsValue) : Except OpError Int :=
  match countDocuments filter options with
  | .error e => .error (.store e)
  | .ok n => .ok n

/-- `Collection.insertDocument`: call `insertOne(document, options)`
and return the raw result object; rejections propagate. -/
def insertDocument (insertOne : JsValue → JsValue → Except StoreError InsertResult)
    (document options : JsValue) : Except OpError InsertResult :=
  match insertOne document options with
  | .error e => .error (.store e)
  | .ok result => .ok result

/-- The statement `delete payload._id` on a JavaScript object: remove
the own property named `key`; on non-objects `delete` is a no-op. -/
def deleteField (key : String) : JsValue → JsValue
  | .obj kvs => .obj (kvs.filter (fun kv => kv.1 ≠ key))
  | v => v

/-- The JavaScript `key in obj` test: does an object carry an own
property with this name? -/
def hasField (key : String) : JsValue → Bool
  | .obj kvs => kvs.any (fun kv => kv.1 == key)
  | _ => false

/-- `Collection.replaceDocument`: first `delete document._id`, then
process the filter, call `replaceOne(filter, document, options)` and
report `modifiedCount` truthiness as a boolean; rejections
propagate. -/
def replaceDocument (replaceOne : JsValue → JsValue → JsValue → Except StoreError ModifyResult)
    (filter document options : JsValue) : Except OpError Bool :=
  let doc := deleteField "_id" document
  match processFilter filter with
  | .error e => .error (.invalidId e)
  | .ok f =>
    match replaceOne f doc options with
    | .error e => .error (.store e)
    | .ok result => if result.modifiedCount ≠ 0 then .ok true else .ok false

/-- `Collection.updateDocument`: first `delete update._id`, then
process the filter, call `updateOne(filter, update, options)` and
report `modifiedCount` truthiness as a boolean; rejections
propagate. -/
def updateDocument (updateOne : JsValue → JsValue → JsValue → Except StoreError ModifyResult)
    (filter update options : JsValue) : Except OpError Bool :=
  let upd := deleteField "_id" update
  match processFilter filter with
  | .error e => .error (.invalidId e)
  | .ok f =>
    match updateOne f upd options with
    | .error e => .error (.store e)
    | .ok result => if result.modifiedCount ≠ 0 then .ok true else .ok false

/-- `Collection.drop`: call the driver's `drop()`; both the `then`
branch and the `catch` branch only log, so the returned promise always
resolves with `undefined` — the rejection is swallowed and no boolean
is produced. -/
def dropCollection (dropCall : Except StoreError Unit) : JsValue :=
  match dropCall with
  | .ok _ => JsValue.undefined
  | .error _ => JsValue.undefined

/-- `Collection.wipe`: call `deleteMany` on the empty filter; both
branches only log, so the returned promise always resolves with
`undefined`. -/
def wipe (deleteMany : JsValue → Except StoreError Unit) : JsValue :=
  match deleteMany (JsValue.obj []) with
  | .ok _ => JsValue.undefined
  | .error _ => JsValue.undefined

/-!
A concrete model of the external driver backed by a list of stored
documents, used to state the claims that speak about "a filter matching
zero / exactly one document".  The driver is not part of this
repository; it is modelled from the spec's collaborator contract
(section 4.2).
-/

mutual
/-- Structural equality of JavaScript values (the equality the driver
model uses to match a literal criterion against a stored field). -/
def jsBeq : JsValue → JsValue → Bool
  | .str a, .str b => a = b
  | .num a, .num b => a = b
  | .bool a, .bool b => a = b
  | .null, .null => true
  | .undefined, .undefined => true
  | .objectId a, .objectId b => a = b
  | .arr xs, .arr ys => jsBeqList xs ys
  | .obj xs, .obj ys => jsBeqEntries xs ys
  | _, _ => false

/-- `jsBeq` on arrays, elementwise. -/
def jsBeqList : List JsValue → List JsValue → Bool
  | [], [] => true
  | x :: xs, y :: ys => jsBeq x y && jsBeqList xs ys
  | _, _ => false

/-- `jsBeq` on object entries, in order. -/
def jsBeqEntries : List (String × JsValue) → List (String × JsValue) → Bool
  | [], [] => true
  | (k, x) :: xs, (l, y) :: ys => k = l && jsBeq x y && jsBeqEntries xs ys
  | _, _ => false
end

/-- Look a field up in a document's entry list (first occurrence). -/
def lookupField (key : String) : List (String × JsValue) → Option JsValue
  | [] => none
  | (k, v) :: rest => if k = key then some v else lookupField key rest

/-- Modelled from the spec: a document matches a filter when every
field of the filter is present in the document with an equal literal
value (section 3: "a mapping from field-path to match-criteria").
Operator criteria are not needed by any claim below. -/
def matchesFilter (filter doc : JsValue) : Bool :=
  match filter, doc with
  | .obj fkvs, .obj dkvs =>
    fkvs.all (fun kv =>
      match lookupField kv.1 dkvs with
      | some v => jsBeq v kv.2
      | none => false)
  | _, _ => false

/-- The number of stored documents a filter matches. -/
def countMatches (docs : List JsValue) (filter : JsValue) : Nat :=
  (docs.filter (fun d => matchesFilter filter d)).length

/-- Modelled from the spec: the driver's `deleteOne` against a store
holding `docs` — it deletes at most one matching document and resolves
with the count of affected documents. -/
def modelDeleteOne (docs : List JsValue) (filter : JsValue) : Except StoreError DeleteResult :=
  .ok ⟨min 1 (countMatches docs filter)⟩

/-- Modelled from the spec: the driver's `replaceOne`/`updateOne`
against a store holding `docs` — it affects at most one matching
document and resolves with the count of affected documents reported in
`modifiedCount` (section 4.2: "a boolean derived from count of affected
documents > 0"). -/
def modelModifyOne (docs : List JsValue) (filter : JsValue) (_payload _options : JsValue) :
    Except StoreError ModifyResult :=
  .ok ⟨min 1 (countMatches docs filter)⟩

/-!
Echo drivers: rejected promises can carry any value, so a driver whose
call rejects with its own filter argument exposes, in the operation's
result, exactly which filter the operation submitted to the store.
-/

/-- A `deleteOne` that rejects with the filter it was given. -/
def echoDeleteOne (f : JsValue) : Except StoreError DeleteResult := .error (.failure f)

/-- A `findOne` that rejects with the filter it was given. -/
def echoFindOne (f _options : JsValue) : Except StoreError JsValue := .error (.failure f)

/-- A `find` that rejects with the filter it was given. -/
def echoFind (f _options : JsValue) : Except StoreError (List JsValue) := .error (.failure f)

/-- A `countDocuments` that rejects with the filter it was given. -/
def echoCountDocuments (f _options : JsValue) : Except StoreError Int := .error (.failure f)

/-- A `replaceOne` that rejects with the filter it was given. -/
def echoReplaceOne (f _payload _options : JsValue) : Except StoreError ModifyResult :=
  .error (.failure f)

/-- An `updateOne` that rejects with the filter it was given. -/
def echoUpdateOne (f _payload _options : JsValue) : Except StoreError ModifyResult :=
  .error (.failure f)

/-- A `replaceOne` that rejects with the payload it was given,
exposing which replacement document the operation submitted. -/
def echoPayloadReplaceOne (_f payload _options : JsValue) : Except StoreError ModifyResult :=
  .error (.failure payload)

/-- An `updateOne` that rejects with the payload it was given,
exposing which update document the operation submitted. -/
def echoPayloadUpdateOne (_f payload _options : JsValue) : Except StoreError ModifyResult :=
  .error (.failure payload)

/-!
`Database` (src/database.js): the registry of collections.  The native
client is modelled by the outcomes of its three calls used during
initialization; the registry itself by the ordered list of registered
collection names.
-/

/-- The outcomes the native MongoClient produces during
`Database.initialize`: whether `connect()`/`isConnected()` succeed,
what `listCollections().toArray` yields, and what `createCollection`
does for each name. -/
structure ClientModel where
  connectOk : Bool
  listCollections : Except StoreError (List String)
  createCollection : String → Except StoreError Unit

/-- What `Database.initialize` can throw: the explicit connection
error, or an uncaught rejection from collection discovery. -/
inductive InitError where
  | connectionFailure : InitError
  | discoveryFailure : StoreError → InitError

/-- `Database.createCollection(name)`: on success the collection is
registered; the `catch` branch only logs, so a failure leaves the
registry unchanged and the promise resolves. -/
def createCollectionModel (client : ClientModel) (registered : List String) (name : String) :
    List String :=
  match client.createCollection name with
  | .ok _ => registered ++ [name]
  | .error _ => registered

/-- `Database.createCollections(names)`: compute the requested names
missing from the current registry, then create each in order (each
individual failure being swallowed by `createCollection`). -/
def createCollectionsModel (client : ClientModel) (registered : List String)
    (requested : List String) : List String :=
  (requested.filter (fun n => !registered.contains n)).foldl
    (createCollectionModel client) registered

/-- `Database.getCollections`: list the remote collections and register
each found name; a `listCollections` error is passed to `reject` and
the promise rejects. -/
def getCollectionsModel (client : ClientModel) : Except StoreError (List String) :=
  client.listCollections

/-- `Database.initialize`: `connect` (throws `ConnectionFailure` on
failure), then `getCollections` — whose rejection is awaited without a
catch and therefore aborts initialize — then `createCollections` on the
requested names.  Returns the final registry contents (the source
returns `true`; the registry is returned here to make the registered
collections observable). -/
def initializeModel (client : ClientModel) (collection_names : List String) :
    Except InitError (List String) :=
  if client.connectOk then
    match getCollectionsModel client with
    | .error e => .error (.discoveryFailure e)
    | .ok found => .ok (createCollectionsModel client found collection_names)
  else
    .error .connectionFailure

/-!
Helper lemmas about `processFilter`.
-/

/-- Entries whose keys are not `"_id"` pass through the outer loop
untouched and raise nothing. -/
theorem processFilterEntries_idFree (kvs : List (String × JsValue))
    (h : ∀ kv ∈ kvs, kv.1 ≠ "_id") :
    processFilterEntries kvs = (.ok (), kvs) := by
  induction kvs with
  | nil => rfl
  | cons kv rest ih =>
    obtain ⟨k, v⟩ := kv
    have hk : k ≠ "_id" := h (k, v) (List.mem_cons_self _ _)
    have hrest : processFilterEntries rest = (.ok (), rest) :=
      ih (fun kv hkv => h kv (List.mem_cons_of_mem _ hkv))
    simp [processFilterEntries, hk, hrest]

/-- A successful `ObjectID` construction always yields a native id. -/
theorem mkObjectID_shape (v v' : JsValue) (h : mkObjectID v = .ok v') :
    ∃ s, v' = .objectId s := by
  cases v with
  | objectId s => exact ⟨s, by cases h; rfl⟩
  | null => exact ⟨"generated", by cases h; rfl⟩
  | num n => exact ⟨"generated", by cases h; rfl⟩
  | str s =>
    by_cases hs : isValidIdString s = true
    · simp [mkObjectID, hs] at h
      unfold nativeIdOfString at h
      by_cases h24 : isHex24 s = true
      · exact ⟨lowerString s, by simp [h24] at h; exact h.symm⟩
      · exact ⟨rawToHex s, by simp [h24] at h; exact h.symm⟩
    · simp [mkObjectID, hs] at h
  | bool b => simp [mkObjectID] at h
  | undefined => simp [mkObjectID] at h
  | arr l => simp [mkObjectID] at h
  | obj kvs => simp [mkObjectID] at h

/-- Re-constructing an `ObjectID` from an already constructed one is
the identity. -/
theorem mkObjectID_idem (v v' : JsValue) (h : mkObjectID v = .ok v') :
    mkObjectID v' = .ok v' := by
  obtain ⟨s, rfl⟩ := mkObjectID_shape v v' h
  rfl

/-- After a successful element coercion every element is a native id,
so coercing again changes nothing. -/
theorem coerceElems_idem (l l' : List JsValue) (h : coerceElems l = (.ok (), l')) :
    coerceElems l' = (.ok (), l') := by
  induction l generalizing l' with
  | nil => cases h; rfl
  | cons v rest ih =>
    cases hmk : mkObjectID v with
    | error e => simp [coerceElems, hmk] at h
    | ok v1 =>
      cases hrest : coerceElems rest with
      | mk r1 rest1 =>
        simp [coerceElems, hmk, hrest] at h
        obtain ⟨hr, hl⟩ := h
        subst hl
        cases r1 with
        | error e => simp at hr
        | ok u =>
          have htail := ih rest1 (by rw [hrest])
          simp [coerceElems, mkObjectID_idem v v1 hmk, htail]

/-- Idempotence of the operator-entry loop after a successful pass. -/
theorem coerceOperatorEntries_idem (kvs kvs' : List (String × JsValue))
    (h : coerceOperatorEntries kvs = (.ok (), kvs')) :
    coerceOperatorEntries kvs' = (.ok (), kvs') := by
  induction kvs generalizing kvs' with
  | nil => cases h; rfl
  | cons kv rest ih =>
    obtain ⟨k, v⟩ := kv
    cases hrest : coerceOperatorEntries rest with
    | mk r1 rest1 =>
      cases v
      case arr elems =>
        cases helems : coerceElems elems with
        | mk re elems1 =>
          cases re with
          | error e => simp [coerceOperatorEntries, helems, hrest] at h
          | ok u =>
            simp [coerceOperatorEntries, helems, hrest] at h
            obtain ⟨hr, hl⟩ := h
            subst hl
            cases r1 with
            | error e => simp at hr
            | ok u2 =>
              have htail := ih rest1 (by rw [hrest])
              simp [coerceOperatorEntries, coerceElems_idem elems elems1 (by rw [helems]),
                htail]
      all_goals
        (simp [coerceOperatorEntries, hrest] at h
         obtain ⟨hr, hl⟩ := h
         subst hl
         cases r1 with
         | error e => simp at hr
         | ok u =>
           have htail := ih rest1 (by rw [hrest])
           simp [coerceOperatorEntries, htail])

/-- Idempotence of the index loop over an array-valued `_id` after a
successful pass. -/
theorem coerceIdArrayElems_idem (l l' : List JsValue)
    (h : coerceIdArrayElems l = (.ok (), l')) :
    coerceIdArrayElems l' = (.ok (), l') := by
  induction l generalizing l' with
  | nil => cases h; rfl
  | cons v rest ih =>
    cases hrest : coerceIdArrayElems rest with
    | mk r1 rest1 =>
      cases v
      case arr inner =>
        cases hinner : coerceElems inner with
        | mk re inner1 =>
          cases re with
          | error e => simp [coerceIdArrayElems, hinner, hrest] at h
          | ok u =>
            simp [coerceIdArrayElems, hinner, hrest] at h
            obtain ⟨hr, hl⟩ := h
            subst hl
            cases r1 with
            | error e => simp at hr
            | ok u2 =>
              have htail := ih rest1 (by rw [hrest])
              simp [coerceIdArrayElems, coerceElems_idem inner inner1 (by rw [hinner]),
                htail]
      all_goals
        (simp [coerceIdArrayElems, hrest] at h
         obtain ⟨hr, hl⟩ := h
         subst hl
         cases r1 with
         | error e => simp at hr
         | ok u =>
           have htail := ih rest1 (by rw [hrest])
           simp [coerceIdArrayElems, htail])

/-- Idempotence of the `switch` body after a successful pass. -/
theorem coerceIdValue_idem (v v' : JsValue) (h : coerceIdValue v = (.ok (), v')) :
    coerceIdValue v' = (.ok (), v') := by
  cases v
  case str s =>
    cases hmk : mkObjectID (.str s) with
    | error e => simp [coerceIdValue, hmk] at h
    | ok v1 =>
      simp [coerceIdValue, hmk] at h
      subst h
      obtain ⟨t, rfl⟩ := mkObjectID_shape (.str s) v1 hmk
      rfl
  case obj kvs =>
    cases hk : coerceOperatorEntries kvs with
    | mk r1 kvs1 =>
      simp [coerceIdValue, hk] at h
      obtain ⟨hr, hl⟩ := h
      subst hl
      cases r1 with
      | error e => simp at hr
      | ok u => simp [coerceIdValue, coerceOperatorEntries_idem kvs kvs1 (by rw [hk])]
  case arr elems =>
    cases hk : coerceIdArrayElems elems with
    | mk r1 elems1 =>
      simp [coerceIdValue, hk] at h
      obtain ⟨hr, hl⟩ := h
      subst hl
      cases r1 with
      | error e => simp at hr
      | ok u => simp [coerceIdValue, coerceIdArrayElems_idem elems elems1 (by rw [hk])]
  all_goals (simp [coerceIdValue] at h; subst h; rfl)

/-- Idempotence of the outer loop after a successful pass. -/
theorem processFilterEntries_idem (kvs kvs' : List (String × JsValue))
    (h : processFilterEntries kvs = (.ok (), kvs')) :
    processFilterEntries kvs' = (.ok (), kvs') := by
  induction kvs generalizing kvs' with
  | nil => cases h; rfl
  | cons kv rest ih =>
    obtain ⟨k, v⟩ := kv
    by_cases hk : k = "_id"
    · cases hciv : coerceIdValue v with
      | mk rc v1 =>
        cases rc with
        | error e => simp [processFilterEntries, hk, hciv] at h
        | ok u =>
          cases hrest : processFilterEntries rest with
          | mk r1 rest1 =>
            simp [processFilterEntries, hk, hciv, hrest] at h
            obtain ⟨hr, hl⟩ := h
            subst hl
            cases r1 with
            | error e => simp at hr
            | ok u2 =>
              have htail := ih rest1 (by rw [hrest])
              simp [processFilterEntries, hk,
                coerceIdValue_idem v v1 (by rw [hciv]), htail]
    · cases hrest : processFilterEntries rest with
      | mk r1 rest1 =>
        simp [processFilterEntries, hk, hrest] at h
        obtain ⟨hr, hl⟩ := h
        subst hl
        cases r1 with
        | error e => simp at hr
        | ok u =>
          have htail := ih rest1 (by rw [hrest])
          simp [processFilterEntries, hk, htail]

/-- Full idempotence of `processFilter`: re-processing an already
successfully processed filter is a no-op. -/
theorem processFilter_idem (f f' : JsValue) (h : processFilter f = .ok f') :
    processFilter f' = .ok f' := by
  unfold processFilter at h ⊢
  cases f
  case obj kvs =>
    cases hpe : processFilterEntries kvs with
    | mk r1 kvs1 =>
      cases r1 with
      | error e => simp [processFilterState, hpe] at h
      | ok u =>
        simp [processFilterState, hpe] at h
        subst h
        simp [processFilterState, processFilterEntries_idem kvs kvs1 (by rw [hpe])]
  all_goals (simp [processFilterState] at h; subst h; simp [processFilterState])

/-- The outer loop leaves a prefix of non-`_id` entries untouched and
continues on the remainder of the entry list. -/
theorem processFilterEntries_append_idFree (pre rest : List (String × JsValue))
    (h : ∀ kv ∈ pre, kv.1 ≠ "_id") :
    processFilterEntries (pre ++ rest) =
      ((processFilterEntries rest).1, pre ++ (processFilterEntries rest).2) := by
  induction pre with
  | nil => simp
  | cons kv pre' ih =>
    obtain ⟨k, v⟩ := kv
    have hk : k ≠ "_id" := h (k, v) (List.mem_cons_self _ _)
    have hpre' := ih (fun kv hkv => h kv (List.mem_cons_of_mem _ hkv))
    simp [processFilterEntries, hk, hpre']

/-- Whatever the outcome, the outer loop preserves every key and leaves
every entry whose key is not `"_id"` entirely unmodified. -/
theorem processFilterEntries_rel (kvs : List (String × JsValue)) (r : Except IdError Unit)
    (kvs' : List (String × JsValue)) (h : processFilterEntries kvs = (r, kvs')) :
    List.Forall₂ (fun a b => a.1 = b.1 ∧ (a.1 ≠ "_id" → b = a)) kvs kvs' := by
  induction kvs generalizing r kvs' with
  | nil => cases h; exact List.Forall₂.nil
  | cons kv rest ih =>
    obtain ⟨k, v⟩ := kv
    by_cases hk : k = "_id"
    · subst hk
      cases hciv : coerceIdValue v with
      | mk rc v1 =>
        cases rc with
        | error e =>
          simp [processFilterEntries, hciv] at h
          obtain ⟨hr, hl⟩ := h
          subst hl
          exact List.Forall₂.cons ⟨rfl, fun hne => absurd rfl hne⟩
            ((List.forall₂_same).2 (fun x _ => ⟨rfl, fun _ => rfl⟩))
        | ok u =>
          cases hrest : processFilterEntries rest with
          | mk r1 rest1 =>
            simp [processFilterEntries, hciv, hrest] at h
            obtain ⟨hr, hl⟩ := h
            subst hl
            exact List.Forall₂.cons ⟨rfl, fun hne => absurd rfl hne⟩ (ih r1 rest1 (by rw [hrest]))
    · cases hrest : processFilterEntries rest with
      | mk r1 rest1 =>
        simp [processFilterEntries, hk, hrest] at h
        obtain ⟨hr, hl⟩ := h
        subst hl
        exact List.Forall₂.cons ⟨rfl, fun _ => rfl⟩ (ih r1 rest1 (by rw [hrest]))

/-- Whatever the outcome, the operator loop preserves every operator
key and leaves every non-array operator value entirely unmodified. -/
theorem coerceOperatorEntries_rel (kvs : List (String × JsValue)) (r : Except IdError Unit)
    (kvs' : List (String × JsValue)) (h : coerceOperatorEntries kvs = (r, kvs')) :
    List.Forall₂ (fun a b => a.1 = b.1 ∧ ((∀ l, a.2 ≠ JsValue.arr l) → b = a)) kvs kvs' := by
  induction kvs generalizing r kvs' with
  | nil => cases h; exact List.Forall₂.nil
  | cons kv rest ih =>
    obtain ⟨k, v⟩ := kv
    cases hrest : coerceOperatorEntries rest with
    | mk r1 rest1 =>
      cases v
      case arr elems =>
        cases helems : coerceElems elems with
        | mk re elems1 =>
          cases re with
          | error e =>
            simp [coerceOperatorEntries, helems] at h
            obtain ⟨hr, hl⟩ := h
            subst hl
            exact List.Forall₂.cons ⟨rfl, fun hne => absurd rfl (hne elems)⟩
              ((List.forall₂_same).2 (fun x _ => ⟨rfl, fun _ => rfl⟩))
          | ok u =>
            simp [coerceOperatorEntries, helems, hrest] at h
            obtain ⟨hr, hl⟩ := h
            subst hl
            exact List.Forall₂.cons ⟨rfl, fun hne => absurd rfl (hne elems)⟩
              (ih r1 rest1 (by rw [hrest]))
      all_goals
        (simp [coerceOperatorEntries, hrest] at h
         obtain ⟨hr, hl⟩ := h
         subst hl
         exact List.Forall₂.cons ⟨rfl, fun _ => rfl⟩ (ih r1 rest1 (by rw [hrest])))

/-- Coercing an array whose elements are all valid id strings succeeds
and maps each element, in order, to its native identifier. -/
theorem coerceElems_valid_strings (ss : List String)
    (h : ∀ s ∈ ss, isValidIdString s = true) :
    coerceElems (ss.map JsValue.str) =
      (.ok (), ss.map (fun s => nativeIdOfString s)) := by
  induction ss with
  | nil => rfl
  | cons s rest ih =>
    have hs : isValidIdString s = true := h s (List.mem_cons_self _ _)
    have hrest := ih (fun t ht => h t (List.mem_cons_of_mem _ ht))
    simp [coerceElems, mkObjectID, hs, hrest]

/-!
Helper lemmas about `sanitizeFilter`.
-/

mutual
/-- After sanitization no key at any depth begins with the reserved
prefix. -/
theorem noDollar_sanitizeFilter : ∀ v : JsValue, noDollarKeys (sanitizeFilter v) = true
  | .arr elems => by
      simp [sanitizeFilter, mongoSanitize, noDollarKeys]
      exact noDollar_sanitizeList elems
  | .obj kvs => by
      simp [sanitizeFilter, mongoSanitize, noDollarKeys]
      exact noDollar_filtered_sanitizeEntries kvs
  | .str s => rfl
  | .num n => rfl
  | .bool b => rfl
  | .null => rfl
  | .undefined => rfl
  | .objectId s => rfl

/-- `noDollar_sanitizeFilter` for every element of an array. -/
theorem noDollar_sanitizeList : ∀ l : List JsValue, noDollarList (sanitizeList l) = true
  | [] => rfl
  | v :: rest => by
      simp [sanitizeList, noDollarList]
      exact ⟨noDollar_sanitizeFilter v, noDollar_sanitizeList rest⟩

/-- Sanitized entries, after the top-level key strip, contain no
reserved-prefix key at any depth. -/
theorem noDollar_filtered_sanitizeEntries : ∀ kvs : List (String × JsValue),
    noDollarEntries ((sanitizeEntries kvs).filter (fun kv => !startsWithDollar kv.1)) = true
  | [] => rfl
  | (k, v) :: rest => by
      by_cases hk : startsWithDollar k = true
      · simp [sanitizeEntries, List.filter, hk]
        exact noDollar_filtered_sanitizeEntries rest
      · simp only [Bool.not_eq_true] at hk
        simp [sanitizeEntries, List.filter, hk, noDollarEntries]
        exact ⟨noDollar_sanitizeFilter v, noDollar_filtered_sanitizeEntries rest⟩
end

/-- The top-level key strip keeps every entry of a clean entry list. -/
theorem filter_of_noDollar (kvs : List (String × JsValue)) (h : noDollarEntries kvs = true) :
    kvs.filter (fun kv => !startsWithDollar kv.1) = kvs := by
  induction kvs with
  | nil => rfl
  | cons kv rest ih =>
    obtain ⟨k, v⟩ := kv
    simp [noDollarEntries] at h
    obtain ⟨⟨hk, hv⟩, hrest⟩ := h
    simp [List.filter, hk, ih hrest]

mutual
/-- A value with no reserved-prefix key anywhere is a fixed point of
`sanitizeFilter`. -/
theorem sanitizeFilter_of_noDollar : ∀ v : JsValue, noDollarKeys v = true → sanitizeFilter v = v
  | .arr elems => fun h => by
      simp [noDollarKeys] at h
      simp [sanitizeFilter, mongoSanitize, sanitizeList_of_noDollar elems h]
  | .obj kvs => fun h => by
      simp [noDollarKeys] at h
      rw [sanitizeFilter, sanitizeEntries_of_noDollar kvs h]
      simp [mongoSanitize, filter_of_noDollar kvs h]
  | .str s => fun _ => rfl
  | .num n => fun _ => rfl
  | .bool b => fun _ => rfl
  | .null => fun _ => rfl
  | .undefined => fun _ => rfl
  | .objectId s => fun _ => rfl

/-- Elementwise version of `sanitizeFilter_of_noDollar`. -/
theorem sanitizeList_of_noDollar : ∀ l : List JsValue, noDollarList l = true → sanitizeList l = l
  | [] => fun _ => rfl
  | v :: rest => fun h => by
      simp [noDollarList] at h
      simp [sanitizeList, sanitizeFilter_of_noDollar v h.1, sanitizeList_of_noDollar rest h.2]

/-- Entrywise version of `sanitizeFilter_of_noDollar`. -/
theorem sanitizeEntries_of_noDollar : ∀ kvs : List (String × JsValue),
    noDollarEntries kvs = true → sanitizeEntries kvs = kvs
  | [] => fun _ => rfl
  | (k, v) :: rest => fun h => by
      simp [noDollarEntries] at h
      obtain ⟨⟨hk, hv⟩, hrest⟩ := h
      simp [sanitizeEntries, sanitizeFilter_of_noDollar v hv,
        sanitizeEntries_of_noDollar rest hrest]
end

/-- `processFilter` on an object whose only `_id` entry sits between
`_id`-free entry lists: the `_id` value is transformed by the `switch`
body and everything else is untouched (success case). -/
theorem processFilter_decomposed_ok (pre post : List (String × JsValue)) (v v' : JsValue)
    (hpre : ∀ kv ∈ pre, kv.1 ≠ "_id") (hpost : ∀ kv ∈ post, kv.1 ≠ "_id")
    (hcv : coerceIdValue v = (.ok (), v')) :
    processFilter (.obj (pre ++ ("_id", v) :: post)) =
      .ok (.obj (pre ++ ("_id", v') :: post)) := by
  have hpost' := processFilterEntries_idFree post hpost
  have hhead : processFilterEntries (("_id", v) :: post) = (.ok (), ("_id", v') :: post) := by
    simp [processFilterEntries, hcv, hpost']
  have happ := processFilterEntries_append_idFree pre (("_id", v) :: post) hpre
  rw [hhead] at happ
  simp only [processFilter, processFilterState, happ]

/-- `processFilter` on an object whose first `_id` entry makes the
`switch` body throw: the error propagates and no entry after the prefix
is even visited. -/
theorem processFilter_decomposed_error (pre post : List (String × JsValue)) (v v' : JsValue)
    (e : IdError) (hpre : ∀ kv ∈ pre, kv.1 ≠ "_id")
    (hcv : coerceIdValue v = (.error e, v')) :
    processFilterState (.obj (pre ++ ("_id", v) :: post)) =
      (.error e, .obj (pre ++ ("_id", v') :: post))
    ∧ processFilter (.obj (pre ++ ("_id", v) :: post)) = .error e := by
  have hhead : processFilterEntries (("_id", v) :: post) = (.error e, ("_id", v') :: post) := by
    simp [processFilterEntries, hcv]
  have happ := processFilterEntries_append_idFree pre (("_id", v) :: post) hpre
  rw [hhead] at happ
  constructor
  · simp only [processFilterState, happ]
  · simp only [processFilter, processFilterState, happ]

/-- Deleting a key really removes every trace of it from the payload. -/
theorem hasField_deleteField (key : String) (d : JsValue) :
    hasField key (deleteField key d) = false := by
  cases d with
  | obj kvs => simp [deleteField, hasField]
  | str s => rfl
  | num n => rfl
  | bool b => rfl
  | null => rfl
  | undefined => rfl
  | objectId s => rfl
  | arr l => rfl

/-!
The claims.
-/

/-- C5: `processFilter` coerces only a direct top-level `_id` key: a
string value becomes the equivalent native identifier; inside an
operator-object value every element of every array-valued operator is
replaced by its native form, order preserved, while non-array operator
values are untouched; keys other than `_id` (and anything nested below
them) are never traversed or modified. -/
theorem processFilter_narrow_toplevel_coercion :
    (∀ (kvs : List (String × JsValue)) (r : Except IdError Unit)
        (kvs' : List (String × JsValue)), processFilterEntries kvs = (r, kvs') →
      List.Forall₂ (fun a b => a.1 = b.1 ∧ (a.1 ≠ "_id" → b = a)) kvs kvs')
    ∧ (∀ s : String, isValidIdString s = true →
        coerceIdValue (.str s) = (.ok (), nativeIdOfString s))
    ∧ (∀ ss : List String, (∀ s ∈ ss, isValidIdString s = true) →
        coerceElems (ss.map JsValue.str) = (.ok (), ss.map (fun s => nativeIdOfString s)))
    ∧ (∀ (kvs : List (String × JsValue)) (r : Except IdError Unit)
        (kvs' : List (String × JsValue)), coerceOperatorEntries kvs = (r, kvs') →
      List.Forall₂ (fun a b => a.1 = b.1 ∧ ((∀ l, a.2 ≠ JsValue.arr l) → b = a)) kvs kvs') := by
  refine ⟨processFilterEntries_rel, ?_, coerceElems_valid_strings, coerceOperatorEntries_rel⟩
  intro s hs
  simp [coerceIdValue, mkObjectID, hs]

/-- Concrete instance of C5 on a two-field filter, a valid id string
and a mixed operator-object. -/
theorem processFilter_narrow_toplevel_coercion_witness :
    List.Forall₂ (fun a b => a.1 = b.1 ∧ (a.1 ≠ "_id" → b = a))
      [("name", JsValue.str "bob"), ("_id", JsValue.str "abcdefabcdefabcdefabcdef")]
      [("name", JsValue.str "bob"), ("_id", JsValue.objectId "abcdefabcdefabcdefabcdef")]
    ∧ coerceIdValue (JsValue.str "abcdefabcdefabcdefabcdef")
        = (.ok (), nativeIdOfString "abcdefabcdefabcdefabcdef")
    ∧ coerceElems ((["aaaaaaaaaaaaaaaaaaaaaaaa", "abcdefabcdefabcdefabcdef"] : List String).map JsValue.str)
        = (.ok (), (["aaaaaaaaaaaaaaaaaaaaaaaa", "abcdefabcdefabcdefabcdef"] : List String).map
            (fun s => nativeIdOfString s))
    ∧ List.Forall₂ (fun a b => a.1 = b.1 ∧ ((∀ l, a.2 ≠ JsValue.arr l) → b = a))
      [("$in", JsValue.arr [JsValue.str "aaaaaaaaaaaaaaaaaaaaaaaa"]), ("$ne", JsValue.num 3)]
      [("$in", JsValue.arr [JsValue.objectId "aaaaaaaaaaaaaaaaaaaaaaaa"]), ("$ne", JsValue.num 3)] :=
  ⟨processFilter_narrow_toplevel_coercion.1 _ _ _ rfl,
   processFilter_narrow_toplevel_coercion.2.1 _ (by decide),
   processFilter_narrow_toplevel_coercion.2.2.1 _ (by decide),
   processFilter_narrow_toplevel_coercion.2.2.2 _ _ _ rfl⟩

/-- C6: `sanitizeFilter` removes every reserved-prefix key at every
nesting depth and is idempotent. -/
theorem sanitizeFilter_all_depths_idempotent :
    (∀ v : JsValue, noDollarKeys (sanitizeFilter v) = true)
    ∧ (∀ v : JsValue, sanitizeFilter (sanitizeFilter v) = sanitizeFilter v) :=
  ⟨noDollar_sanitizeFilter, fun v =>
    sanitizeFilter_of_noDollar (sanitizeFilter v) (noDollar_sanitizeFilter v)⟩

/-- C7: `replaceDocument` and `updateDocument` delete the `_id` field
from the replacement/update payload before submission: the deleted
payload carries no `_id`, and the payload each operation hands to the
driver (observed through a driver that rejects with its payload
argument) is exactly the `_id`-stripped one. -/
theorem update_replace_strip_id_from_payload :
    (∀ d : JsValue, hasField "_id" (deleteField "_id" d) = false)
    ∧ (∀ f f' d o : JsValue, processFilter f = .ok f' →
        replaceDocument echoPayloadReplaceOne f d o
          = .error (.store (.failure (deleteField "_id" d))))
    ∧ (∀ f f' d o : JsValue, processFilter f = .ok f' →
        updateDocument echoPayloadUpdateOne f d o
          = .error (.store (.failure (deleteField "_id" d)))) := by
  refine ⟨hasField_deleteField "_id", ?_, ?_⟩
  · intro f f' d o h
    simp [replaceDocument, echoPayloadReplaceOne, h]
  · intro f f' d o h
    simp [updateDocument, echoPayloadUpdateOne, h]

/-- Concrete instance of C7 on a payload that does carry an `_id`. -/
theorem update_replace_strip_id_from_payload_witness :
    replaceDocument echoPayloadReplaceOne (JsValue.obj [])
        (JsValue.obj [("_id", JsValue.str "x"), ("a", JsValue.num 2)]) (JsValue.obj [])
      = .error (.store (.failure (JsValue.obj [("a", JsValue.num 2)])))
    ∧ updateDocument echoPayloadUpdateOne (JsValue.obj [])
        (JsValue.obj [("_id", JsValue.str "x"), ("a", JsValue.num 2)]) (JsValue.obj [])
      = .error (.store (.failure (JsValue.obj [("a", JsValue.num 2)]))) :=
  ⟨update_replace_strip_id_from_payload.2.1 _ _ _ _ rfl,
   update_replace_strip_id_from_payload.2.2 _ _ _ _ rfl⟩

/-- C8: a filter whose top-level `_id` holds a string that is not a
valid identifier encoding makes `processFilter` throw
`invalidIdentifierFormat`, and the filter object — in particular every
field other than `_id` — is left completely unmutated. -/
theorem processFilter_invalid_id_error (pre post : List (String × JsValue)) (s : String)
    (hpre : ∀ kv ∈ pre, kv.1 ≠ "_id") (hs : isValidIdString s = false) :
    processFilterState (.obj (pre ++ ("_id", .str s) :: post)) =
      (.error .invalidIdentifierFormat, .obj (pre ++ ("_id", .str s) :: post))
    ∧ processFilter (.obj (pre ++ ("_id", .str s) :: post)) = .error .invalidIdentifierFormat := by
  have hcv : coerceIdValue (.str s) = (.error .invalidIdentifierFormat, .str s) := by
    simp [coerceIdValue, mkObjectID, hs]
  exact processFilter_decomposed_error pre post _ _ _ hpre hcv

/-- Concrete instance of C8: an invalid id between two other fields. -/
theorem processFilter_invalid_id_error_witness :
    processFilterState (.obj [("name", JsValue.str "bob"), ("_id", JsValue.str "zzz"),
        ("age", JsValue.num 4)]) =
      (.error .invalidIdentifierFormat,
       .obj [("name", JsValue.str "bob"), ("_id", JsValue.str "zzz"), ("age", JsValue.num 4)])
    ∧ processFilter (.obj [("name", JsValue.str "bob"), ("_id", JsValue.str "zzz"),
        ("age", JsValue.num 4)]) = .error .invalidIdentifierFormat :=
  processFilter_invalid_id_error [("name", JsValue.str "bob")] [("age", JsValue.num 4)] "zzz"
    (by decide) (by decide)

/-- C9: a valid id string under the top-level `_id` is replaced by its
native-identifier form, and `processFilter` is idempotent — a filter it
has already processed successfully passes through unchanged. -/
theorem processFilter_valid_id_native_idempotent :
    (∀ (pre post : List (String × JsValue)) (s : String),
      (∀ kv ∈ pre, kv.1 ≠ "_id") → (∀ kv ∈ post, kv.1 ≠ "_id") →
      isValidIdString s = true →
      processFilter (.obj (pre ++ ("_id", .str s) :: post)) =
        .ok (.obj (pre ++ ("_id", nativeIdOfString s) :: post)))
    ∧ (∀ f f' : JsValue, processFilter f = .ok f' → processFilter f' = .ok f') := by
  constructor
  · intro pre post s hpre hpost hs
    have hcv : coerceIdValue (.str s) = (.ok (), nativeIdOfString s) := by
      simp [coerceIdValue, mkObjectID, hs]
    exact processFilter_decomposed_ok pre post _ _ hpre hpost hcv
  · exact processFilter_idem

/-- Concrete instance of C9: a valid id is coerced, and re-processing
the already-native result is a no-op. -/
theorem processFilter_valid_id_native_idempotent_witness :
    processFilter (.obj [("_id", JsValue.str "aaaaaaaaaaaaaaaaaaaaaaaa")]) =
      .ok (.obj [("_id", nativeIdOfString "aaaaaaaaaaaaaaaaaaaaaaaa")])
    ∧ processFilter (.obj [("_id", JsValue.objectId "aaaaaaaaaaaaaaaaaaaaaaaa")]) =
      .ok (.obj [("_id", JsValue.objectId "aaaaaaaaaaaaaaaaaaaaaaaa")]) :=
  ⟨processFilter_valid_id_native_idempotent.1 [] [] "aaaaaaaaaaaaaaaaaaaaaaaa"
      (by simp) (by simp) (by decide),
   processFilter_valid_id_native_idempotent.2
      (.obj [("_id", JsValue.str "aaaaaaaaaaaaaaaaaaaaaaaa")])
      (.obj [("_id", JsValue.objectId "aaaaaaaaaaaaaaaaaaaaaaaa")]) rfl⟩

/-- C10: a top-level `_id` whose value is neither a string nor of
JavaScript type "object" (for example a number or a boolean) is left
completely unchanged by `processFilter`, with no error raised. -/
theorem processFilter_other_id_types_unchanged (pre post : List (String × JsValue)) (v : JsValue)
    (hpre : ∀ kv ∈ pre, kv.1 ≠ "_id") (hpost : ∀ kv ∈ post, kv.1 ≠ "_id")
    (hstr : jsTypeof v ≠ "string") (hobj : jsTypeof v ≠ "object") :
    processFilter (.obj (pre ++ ("_id", v) :: post)) =
      .ok (.obj (pre ++ ("_id", v) :: post)) := by
  have hcv : coerceIdValue v = (.ok (), v) := by
    cases v
    case str s => exact absurd rfl hstr
    case num n => rfl
    case bool b => rfl
    case undefined => rfl
    case null => exact absurd rfl hobj
    case objectId t => exact absurd rfl hobj
    case arr l => exact absurd rfl hobj
    case obj kvs => exact absurd rfl hobj
  exact processFilter_decomposed_ok pre post v v hpre hpost hcv

/-- Concrete instance of C10 with a numeric `_id`. -/
theorem processFilter_other_id_types_unchanged_witness :
    processFilter (.obj [("a", JsValue.str "b"), ("_id", JsValue.num 7)]) =
      .ok (.obj [("a", JsValue.str "b"), ("_id", JsValue.num 7)]) :=
  processFilter_other_id_types_unchanged [("a", JsValue.str "b")] [] (JsValue.num 7)
    (by decide) (by simp) (by decide) (by decide)

/-- C1 counterexample: a remote-store failure during `deleteDocument`
is not converted to `false` — the rejection propagates to the caller
(the source has no try/catch around `deleteOne`); and `drop` on a
failing store resolves with `undefined`, not `false`. -/
theorem deleteDocument_store_failure_propagates :
    deleteDocument (fun _ => .error (.failure (.str "OperationFailure"))) (JsValue.obj [])
      = .error (.store (.failure (.str "OperationFailure")))
    ∧ deleteDocument (fun _ => .error (.failure (.str "OperationFailure"))) (JsValue.obj [])
      ≠ .ok false
    ∧ dropCollection (.error (.failure (.str "OperationFailure"))) = JsValue.undefined :=
  ⟨rfl, fun h => Except.noConfusion h, rfl⟩

/-- C1 amended: store failures during `deleteDocument`,
`updateDocument` and `replaceDocument` propagate to the caller exactly
as insert/get failures do (the boolean `false` only reports a
zero-affected-count success result); only `drop` and `wipe` swallow the
failure after logging, and they resolve with `undefined`, not
`false`. -/
theorem store_failure_propagation (e : StoreError) (f f' d o : JsValue)
    (h : processFilter f = .ok f') :
    deleteDocument (fun _ => .error e) f = .error (.store e)
    ∧ replaceDocument (fun _ _ _ => .error e) f d o = .error (.store e)
    ∧ updateDocument (fun _ _ _ => .error e) f d o = .error (.store e)
    ∧ getDocument (fun _ _ => .error e) f o = .error (.store e)
    ∧ getDocuments (fun _ _ => .error e) f o = .error (.store e)
    ∧ getCount (fun _ _ => .error e) f o = .error (.store e)
    ∧ insertDocument (fun _ _ => .error e) d o = .error (.store e)
    ∧ dropCollection (.error e) = JsValue.undefined
    ∧ wipe (fun _ => .error e) = JsValue.undefined :=
  ⟨by simp [deleteDocument, h], by simp [replaceDocument, h], by simp [updateDocument, h],
   by simp [getDocument, h], by simp [getDocuments, h], by simp [getCount],
   by simp [insertDocument], rfl, rfl⟩

/-- Concrete instance of the amended C1. -/
theorem store_failure_propagation_witness :
    deleteDocument (fun _ => .error (.failure JsValue.null)) (JsValue.obj [("a", JsValue.num 1)])
      = .error (.store (.failure JsValue.null))
    ∧ wipe (fun _ => .error (.failure JsValue.null)) = JsValue.undefined :=
  ⟨(store_failure_propagation (.failure JsValue.null) (JsValue.obj [("a", JsValue.num 1)])
      (JsValue.obj [("a", JsValue.num 1)]) (JsValue.obj []) (JsValue.obj []) rfl).1,
   (store_failure_propagation (.failure JsValue.null) (JsValue.obj [("a", JsValue.num 1)])
      (JsValue.obj [("a", JsValue.num 1)]) (JsValue.obj []) (JsValue.obj []) rfl).2.2.2.2.2.2.2.2⟩

/-- C2 counterexample: `getCount` submits its filter to the store
unprocessed — the filter observed by the driver still holds the raw
`_id` string even though `processFilter` would have coerced it. -/
theorem getCount_skips_processFilter :
    processFilter (JsValue.obj [("_id", JsValue.str "aaaaaaaaaaaaaaaaaaaaaaaa")])
      = .ok (JsValue.obj [("_id", JsValue.objectId "aaaaaaaaaaaaaaaaaaaaaaaa")])
    ∧ JsValue.obj [("_id", JsValue.objectId "aaaaaaaaaaaaaaaaaaaaaaaa")]
      ≠ JsValue.obj [("_id", JsValue.str "aaaaaaaaaaaaaaaaaaaaaaaa")]
    ∧ getCount echoCountDocuments
        (JsValue.obj [("_id", JsValue.str "aaaaaaaaaaaaaaaaaaaaaaaa")]) (JsValue.obj [])
      = .error (.store (.failure
          (JsValue.obj [("_id", JsValue.str "aaaaaaaaaaaaaaaaaaaaaaaa")]))) :=
  ⟨rfl, by simp, rfl⟩

/-- C2 amended: `getDocument`, `getDocuments`, `deleteDocument`,
`replaceDocument` and `updateDocument` submit `processFilter filter` to
the driver (observed through echoing drivers); `getCount` alone submits
the raw, uncoerced filter. -/
theorem filter_ops_submit_processed_filter (f f' d o : JsValue)
    (h : processFilter f = .ok f') :
    getDocument echoFindOne f o = .error (.store (.failure f'))
    ∧ getDocuments echoFind f o = .error (.store (.failure f'))
    ∧ deleteDocument echoDeleteOne f = .error (.store (.failure f'))
    ∧ replaceDocument echoReplaceOne f d o = .error (.store (.failure f'))
    ∧ updateDocument echoUpdateOne f d o = .error (.store (.failure f'))
    ∧ getCount echoCountDocuments f o = .error (.store (.failure f)) :=
  ⟨by simp [getDocument, echoFindOne, h], by simp [getDocuments, echoFind, h],
   by simp [deleteDocument, echoDeleteOne, h], by simp [replaceDocument, echoReplaceOne, h],
   by simp [updateDocument, echoUpdateOne, h], by simp [getCount, echoCountDocuments]⟩

/-- Concrete instance of the amended C2: the delete path submits the
coerced filter, the count path the raw one. -/
theorem filter_ops_submit_processed_filter_witness :
    deleteDocument echoDeleteOne (JsValue.obj [("_id", JsValue.str "ffffffffffffffffffffffff")])
      = .error (.store (.failure (JsValue.obj [("_id",
          JsValue.objectId "ffffffffffffffffffffffff")])))
    ∧ getCount echoCountDocuments
        (JsValue.obj [("_id", JsValue.str "ffffffffffffffffffffffff")]) (JsValue.obj [])
      = .error (.store (.failure (JsValue.obj [("_id",
          JsValue.str "ffffffffffffffffffffffff")]))) :=
  ⟨(filter_ops_submit_processed_filter
      (JsValue.obj [("_id", JsValue.str "ffffffffffffffffffffffff")])
      (JsValue.obj [("_id", JsValue.objectId "ffffffffffffffffffffffff")])
      (JsValue.obj []) (JsValue.obj []) rfl).2.2.1,
   (filter_ops_submit_processed_filter
      (JsValue.obj [("_id", JsValue.str "ffffffffffffffffffffffff")])
      (JsValue.obj [("_id", JsValue.objectId "ffffffffffffffffffffffff")])
      (JsValue.obj []) (JsValue.obj []) rfl).2.2.2.2.2⟩

/-- C3 counterexample: a filter whose `_id` is an invalid id string
matches zero documents of an empty store, yet `deleteDocument` throws
`invalidIdentifierFormat` instead of returning `false`. -/
theorem deleteDocument_throws_on_zero_match_filter :
    countMatches [] (JsValue.obj [("_id", JsValue.str "not-an-identifier")]) = 0
    ∧ deleteDocument (modelDeleteOne [])
        (JsValue.obj [("_id", JsValue.str "not-an-identifier")])
      = .error (.invalidId .invalidIdentifierFormat)
    ∧ deleteDocument (modelDeleteOne [])
        (JsValue.obj [("_id", JsValue.str "not-an-identifier")])
      ≠ .ok false :=
  ⟨rfl, rfl, fun h => Except.noConfusion h⟩

/-- C3 amended: for every filter on which identifier coercion succeeds,
`deleteDocument`, `replaceDocument` and `updateDocument` against the
spec-modelled driver return `false` without throwing when the processed
filter matches zero stored documents, and `true` when it matches
exactly one. -/
theorem delete_update_replace_match_count (docs : List JsValue) (f f' payload o : JsValue)
    (h : processFilter f = .ok f') :
    (countMatches docs f' = 0 →
      deleteDocument (modelDeleteOne docs) f = .ok false
      ∧ replaceDocument (modelModifyOne docs) f payload o = .ok false
      ∧ updateDocument (modelModifyOne docs) f payload o = .ok false)
    ∧ (countMatches docs f' = 1 →
      deleteDocument (modelDeleteOne docs) f = .ok true
      ∧ replaceDocument (modelModifyOne docs) f payload o = .ok true
      ∧ updateDocument (modelModifyOne docs) f payload o = .ok true) :=
  ⟨fun hc =>
    ⟨by simp [deleteDocument, h, modelDeleteOne, hc],
     by simp [replaceDocument, h, modelModifyOne, hc],
     by simp [updateDocument, h, modelModifyOne, hc]⟩,
   fun hc =>
    ⟨by simp [deleteDocument, h, modelDeleteOne, hc],
     by simp [replaceDocument, h, modelModifyOne, hc],
     by simp [updateDocument, h, modelModifyOne, hc]⟩⟩

/-- Concrete instance of the amended C3: zero matches on an empty
store give `false`, a uniquely matching document gives `true`. -/
theorem delete_update_replace_match_count_witness :
    deleteDocument (modelDeleteOne []) (JsValue.obj [("a", JsValue.num 1)]) = .ok false
    ∧ deleteDocument (modelDeleteOne [JsValue.obj [("a", JsValue.num 1)]])
        (JsValue.obj [("a", JsValue.num 1)]) = .ok true :=
  ⟨((delete_update_replace_match_count [] (JsValue.obj [("a", JsValue.num 1)])
      (JsValue.obj [("a", JsValue.num 1)]) (JsValue.obj []) (JsValue.obj []) rfl).1 rfl).1,
   ((delete_update_replace_match_count [JsValue.obj [("a", JsValue.num 1)]]
      (JsValue.obj [("a", JsValue.num 1)]) (JsValue.obj [("a", JsValue.num 1)])
      (JsValue.obj []) (JsValue.obj []) rfl).2 rfl).1⟩

/-- C4 counterexample: a failing collection-discovery step
(`listCollections` rejecting) aborts `initialize` with an error even
though connection and collection creation would succeed — the discovery
failure is not swallowed. -/
theorem initialize_aborts_on_discovery_failure :
    initializeModel
        ⟨true, .error (.failure (.str "listCollections error")), fun _ => .ok ()⟩ ["users"]
      = .error (.discoveryFailure (.failure (.str "listCollections error"))) := rfl

/-- C4 amended: a collection-creation failure is swallowed
(`createCollection` logs, registers nothing and resolves), so
initialization completes whatever the creation outcomes; but a
collection-discovery failure rejects uncaught and aborts
`initialize`. -/
theorem initialize_failure_semantics :
    (∀ (cfun : String → Except StoreError Unit) (found names : List String),
      initializeModel ⟨true, .ok found, cfun⟩ names
        = .ok (createCollectionsModel ⟨true, .ok found, cfun⟩ found names))
    ∧ (∀ (client : ClientModel) (names : List String) (e : StoreError),
        client.connectOk = true → client.listCollections = .error e →
        initializeModel client names = .error (.discoveryFailure e))
    ∧ (∀ (client : ClientModel) (reg : List String) (name : String) (e : StoreError),
        client.createCollection name = .error e →
        createCollectionModel client reg name = reg) :=
  ⟨fun cfun found names => rfl,
   fun client names e hc hl => by simp [initializeModel, getCollectionsModel, hc, hl],
   fun client reg name e hcr => by simp [createCollectionModel, hcr]⟩

/-- Concrete instance of the amended C4: with a client whose every
`createCollection` call fails, initialization still completes (with an
empty registry), and a discovery failure aborts it. -/
theorem initialize_failure_semantics_witness :
    initializeModel ⟨true, .ok [], fun _ => .error (.failure JsValue.null)⟩ ["users"]
      = .ok (createCollectionsModel
          ⟨true, .ok [], fun _ => .error (.failure JsValue.null)⟩ [] ["users"])
    ∧ initializeModel ⟨true, .error (.failure JsValue.null), fun _ => .ok ()⟩ []
      = .error (.discoveryFailure (.failure JsValue.null))
    ∧ createCollectionModel ⟨true, .ok [], fun _ => .error (.failure JsValue.null)⟩ [] "users"
      = [] :=
  ⟨initialize_failure_semantics.1 _ [] ["users"],
   initialize_failure_semantics.2.1
     ⟨true, .error (.failure JsValue.null), fun _ => .ok ()⟩ [] (.failure JsValue.null) rfl rfl,
   initialize_failure_semantics.2.2
     ⟨true, .ok [], fun _ => .error (.failure JsValue.null)⟩ [] "users"
     (.failure JsValue.null) rfl⟩
